import Mathlib

/-!
Verification of the sharded property-catalog core (backend_v12.py).

The development shallowly embeds the data model and the operations of the
property-management backend: BSON-like documents as association lists,
the four-shard state, SHA-256 based placement, derived custom ids,
insert/search/update/delete orchestration with an explicit write trace,
and proves the specification claims about them.
-/

set_option maxRecDepth 4000

/-- Values stored in a document: strings, integers, floats (modelled as
rationals), lists, and a null value. Every list value that occurs in the
modelled fragment is a list of strings (image paths, shard names), so list
values carry strings directly. -/
inductive Value where
  | vstr (s : String)
  | vint (n : Int)
  | vfloat (q : Rat)
  | vlist (l : List String)
  | vnone
  deriving DecidableEq

/-- A document is an ordered association list from field names to values,
mirroring a Python dict (insertion order, unique keys maintained by dSet). -/
def Doc : Type := List (String × Value)

instance : DecidableEq Doc := by
  unfold Doc
  infer_instance

/-- First value bound to a key, mirroring dict lookup. -/
def dGet (d : Doc) (k : String) : Option Value :=
  match d with
  | [] => none
  | (k', v) :: rest => if k' = k then some v else dGet rest k

/-- Bind a key, replacing the first existing binding or appending a new one,
mirroring dict assignment. -/
def dSet (d : Doc) (k : String) (v : Value) : Doc :=
  match d with
  | [] => [(k, v)]
  | (k', v') :: rest => if k' = k then (k, v) :: rest else (k', v') :: dSet rest k v

theorem dGet_dSet_same (d : Doc) (k : String) (v : Value) :
    dGet (dSet d k v) k = some v := by
  induction d with
  | nil => simp [dGet, dSet]
  | cons hd tl ih =>
    by_cases h : hd.1 = k
    · simp [dGet, dSet, h]
    · simp [dGet, dSet, h, ih]

theorem dGet_dSet_diff (d : Doc) (k k' : String) (v : Value) (hne : k ≠ k') :
    dGet (dSet d k v) k' = dGet d k' := by
  induction d with
  | nil => simp [dGet, dSet, hne]
  | cons hd tl ih =>
    by_cases h : hd.1 = k
    · simp [dGet, dSet, h, hne]
    · simp [dGet, dSet, h, ih]

/-! ## SHA-256 over natural numbers

The backend places records by `int(hashlib.sha256(custom_id.encode()).hexdigest(), 16)`.
We implement SHA-256 over `Nat` with explicit reduction mod 2^32. -/

/-- Reduce to a 32-bit word. -/
def w32 (x : Nat) : Nat := x % 4294967296

/-- Right rotation of a 32-bit word. -/
def rotr (n x : Nat) : Nat := w32 ((x >>> n) ||| (x <<< (32 - n)))

/-- Bitwise complement within 32 bits. -/
def notW (x : Nat) : Nat := 4294967295 ^^^ (w32 x)

/-- SHA-256 choice function. -/
def shaCh (x y z : Nat) : Nat := (x &&& y) ^^^ (notW x &&& z)

/-- SHA-256 majority function. -/
def shaMaj (x y z : Nat) : Nat := (x &&& y) ^^^ (x &&& z) ^^^ (y &&& z)

/-- SHA-256 big sigma 0. -/
def bsig0 (x : Nat) : Nat := rotr 2 x ^^^ rotr 13 x ^^^ rotr 22 x

/-- SHA-256 big sigma 1. -/
def bsig1 (x : Nat) : Nat := rotr 6 x ^^^ rotr 11 x ^^^ rotr 25 x

/-- SHA-256 small sigma 0. -/
def ssig0 (x : Nat) : Nat := rotr 7 x ^^^ rotr 18 x ^^^ (x >>> 3)

/-- SHA-256 small sigma 1. -/
def ssig1 (x : Nat) : Nat := rotr 17 x ^^^ rotr 19 x ^^^ (x >>> 10)

/-- The 64 SHA-256 round constants. -/
def shaK : List Nat :=
  [1116352408, 1899447441, 3049323471, 3921009573, 961987163, 1508970993,
   2453635748, 2870763221, 3624381080, 310598401, 607225278, 1426881987,
   1925078388, 2162078206, 2614888103, 3248222580, 3835390401, 4022224774,
   264347078, 604807628, 770255983, 1249150122, 1555081692, 1996064986,
   2554220882, 2821834349, 2952996808, 3210313671, 3336571891, 3584528711,
   113926993, 338241895, 666307205, 773529912, 1294757372, 1396182291,
   1695183700, 1986661051, 2177026350, 2456956037, 2730485921, 2820302411,
   3259730800, 3345764771, 3516065817, 3600352804, 4094571909, 275423344,
   430227734, 506948616, 659060556, 883997877, 958139571, 1322822218,
   1537002063, 1747873779, 1955562222, 2024104815, 2227730452, 2361852424,
   2428436474, 2756734187, 3204031479, 3329325298]

/-- The initial SHA-256 hash state. -/
def shaH0 : List Nat :=
  [1779033703, 3144134277, 1013904242, 2773480762,
   1359893119, 2600822924, 528734635, 1541459225]

/-- UTF-8 encoding of one character as a byte list, mirroring Python's
str.encode(). -/
def utf8Char (c : Char) : List Nat :=
  let n := c.toNat
  if n < 128 then [n]
  else if n < 2048 then [192 + n / 64, 128 + n % 64]
  else if n < 65536 then [224 + n / 4096, 128 + (n / 64) % 64, 128 + n % 64]
  else [240 + n / 262144, 128 + (n / 4096) % 64, 128 + (n / 64) % 64, 128 + n % 64]

/-- UTF-8 byte sequence of a string. -/
def strBytes (s : String) : List Nat :=
  s.data.foldr (fun c acc => utf8Char c ++ acc) []

/-- Big-endian 8-byte encoding of a natural number. -/
def be64 (n : Nat) : List Nat :=
  [(n >>> 56) &&& 255, (n >>> 48) &&& 255, (n >>> 40) &&& 255, (n >>> 32) &&& 255,
   (n >>> 24) &&& 255, (n >>> 16) &&& 255, (n >>> 8) &&& 255, n &&& 255]

/-- SHA-256 message padding of a byte list. -/
def padBytes (msg : List Nat) : List Nat :=
  let l := msg.length
  let k := (64 + 56 - ((l + 1) % 64)) % 64
  msg ++ [128] ++ List.replicate k 0 ++ be64 (8 * l)

/-- Combine bytes into big-endian 32-bit words. -/
def bytesToWords : List Nat → List Nat
  | a :: b :: c :: d :: rest => (a * 16777216 + b * 65536 + c * 256 + d) :: bytesToWords rest
  | _ => []

/-- Group words into 16-word blocks. -/
def wordsToBlocks : List Nat → List (List Nat)
  | w0 :: w1 :: w2 :: w3 :: w4 :: w5 :: w6 :: w7 :: w8 :: w9 :: w10 :: w11 :: w12 :: w13 :: w14 :: w15 :: rest =>
      [w0, w1, w2, w3, w4, w5, w6, w7, w8, w9, w10, w11, w12, w13, w14, w15] :: wordsToBlocks rest
  | _ => []

/-- One step of the message-schedule extension. -/
def scheduleStep (ws : List Nat) : List Nat :=
  let n := ws.length
  ws ++ [w32 (ssig1 (ws.getD (n - 2) 0) + ws.getD (n - 7) 0 + ssig0 (ws.getD (n - 15) 0) + ws.getD (n - 16) 0)]

/-- Extend a 16-word block to the 64-word message schedule. -/
def schedule (ws : List Nat) : List Nat :=
  (List.range 48).foldl (fun acc _ => scheduleStep acc) ws

/-- The eight working registers of the compression loop. -/
structure SHAState where
  ra : Nat
  rb : Nat
  rc : Nat
  rd : Nat
  re : Nat
  rf : Nat
  rg : Nat
  rh : Nat

/-- One compression round; the pair carries the schedule word and the round
constant. -/
def compressStep (st : SHAState) (wk : Nat × Nat) : SHAState :=
  let t1 := w32 (st.rh + bsig1 st.re + shaCh st.re st.rf st.rg + wk.2 + wk.1)
  let t2 := w32 (bsig0 st.ra + shaMaj st.ra st.rb st.rc)
  ⟨w32 (t1 + t2), st.ra, st.rb, st.rc, w32 (st.rd + t1), st.re, st.rf, st.rg⟩

/-- Process one 16-word block into the running hash. -/
def processBlock (hs : List Nat) (block : List Nat) : List Nat :=
  let ws := schedule block
  let st0 : SHAState :=
    ⟨hs.getD 0 0, hs.getD 1 0, hs.getD 2 0, hs.getD 3 0, hs.getD 4 0, hs.getD 5 0, hs.getD 6 0, hs.getD 7 0⟩
  let stf := (ws.zip shaK).foldl compressStep st0
  [w32 (hs.getD 0 0 + stf.ra), w32 (hs.getD 1 0 + stf.rb), w32 (hs.getD 2 0 + stf.rc),
   w32 (hs.getD 3 0 + stf.rd), w32 (hs.getD 4 0 + stf.re), w32 (hs.getD 5 0 + stf.rf),
   w32 (hs.getD 6 0 + stf.rg), w32 (hs.getD 7 0 + stf.rh)]

/-- SHA-256 digest of a byte list as eight 32-bit words. -/
def sha256Words (msg : List Nat) : List Nat :=
  (wordsToBlocks (bytesToWords (padBytes msg))).foldl processBlock shaH0

/-- SHA-256 digest of a string interpreted as one unsigned integer,
mirroring int(hashlib.sha256(s.encode()).hexdigest(), 16). -/
def sha256Nat (s : String) : Nat :=
  (sha256Words (strBytes s)).foldl (fun acc w => acc * 4294967296 + w) 0

theorem sha256_empty_vector :
    sha256Nat "" = 102987336249554097029535212322581322789799900648198034993379397001115665086549 := by
  decide

/-! ## Shards and placement -/

/-- The four statically configured shard databases. -/
def DATABASE_NAMES : List String :=
  ["properties_db1", "properties_db2", "properties_db3", "properties_db4"]

/-- The contents of the four shards, each a properties collection
(a list of documents in insertion order). -/
structure ShardState where
  db1 : List Doc
  db2 : List Doc
  db3 : List Doc
  db4 : List Doc
  deriving DecidableEq

/-- The properties collection of the shard with the given database name. -/
def getShard (s : ShardState) (name : String) : List Doc :=
  if name = "properties_db1" then s.db1
  else if name = "properties_db2" then s.db2
  else if name = "properties_db3" then s.db3
  else if name = "properties_db4" then s.db4
  else []

/-- Replace the properties collection of the shard with the given name. -/
def putShard (s : ShardState) (name : String) (docs : List Doc) : ShardState :=
  if name = "properties_db1" then { s with db1 := docs }
  else if name = "properties_db2" then { s with db2 := docs }
  else if name = "properties_db3" then { s with db3 := docs }
  else if name = "properties_db4" then { s with db4 := docs }
  else s

/-- The shards paired with their names, in the configured order. -/
def shardPairs (s : ShardState) : List (String × List Doc) :=
  [("properties_db1", s.db1), ("properties_db2", s.db2),
   ("properties_db3", s.db3), ("properties_db4", s.db4)]

/-- Primary-shard index: the SHA-256 value of the custom id reduced modulo
the number of shards. -/
def primaryIdx (custom_id : String) : Nat :=
  sha256Nat custom_id % DATABASE_NAMES.length

/-- Name of the primary shard for a custom id, mirroring get_database. -/
def get_database (custom_id : String) : String :=
  DATABASE_NAMES.getD (primaryIdx custom_id) ""

/-- Index of the duplication target: the same hash reduced modulo one less
than the shard count, shifted up by one when the excluded shard's position
is at most the candidate, mirroring generate_hash_for_duplication. -/
def dupTargetIdx (custom_id : String) (exclude_db : String) : Nat :=
  let hash_value := sha256Nat custom_id
  let target_db_index := hash_value % (DATABASE_NAMES.length - 1)
  if DATABASE_NAMES.findIdx (fun n => n == exclude_db) ≤ target_db_index then
    target_db_index + 1
  else
    target_db_index

/-- Name of the duplication target shard, mirroring
generate_hash_for_duplication. -/
def generate_hash_for_duplication (custom_id : String) (exclude_db : String) : String :=
  DATABASE_NAMES.getD (dupTargetIdx custom_id exclude_db) ""

/-! ## Derived custom ids

create_custom_id extracts from the address the leading house-number digits
and up to four street-name words, using the regular expression
(\d+)\s+([\w]+\s+[\w]+\s+[\w]+\s+[\w]+|\w+\s+\w+\s+\w+|\w+\s+\w+|\w+)
via re.search.  Because the character classes of adjacent subpatterns are
disjoint, greedy runs need no backtracking, so the search is embedded as a
leftmost scan with maximal runs. -/

/-- The \d character class (ASCII digits). -/
def isDigitC (c : Char) : Bool := c.isDigit

/-- The \s character class (ASCII whitespace). -/
def isSpaceC (c : Char) : Bool :=
  c = ' ' || c = '\t' || c = '\n' || c = '\x0d' || c = '\x0b' || c = '\x0c'

/-- The \w character class (letters, digits, underscore). -/
def isWordC (c : Char) : Bool := c.isAlphanum || c = '_'

/-- Match n+1 whitespace-separated words at the head of the input; return
the matched characters (separators included) and the rest. -/
def matchWordSeq : Nat → List Char → Option (List Char × List Char)
  | n, l =>
    let w := l.takeWhile isWordC
    let r1 := l.dropWhile isWordC
    if w.isEmpty then none
    else
      match n with
      | 0 => some (w, r1)
      | m + 1 =>
        let sp := r1.takeWhile isSpaceC
        let r2 := r1.dropWhile isSpaceC
        if sp.isEmpty then none
        else
          match matchWordSeq m r2 with
          | some (t, r3) => some (w ++ sp ++ t, r3)
          | none => none

/-- The street-name alternation: four, three, two words, or one word,
tried in that order. -/
def altMatch (l : List Char) : Option (List Char × List Char) :=
  match matchWordSeq 3 l with
  | some r => some r
  | none =>
    match matchWordSeq 2 l with
    | some r => some r
    | none =>
      match matchWordSeq 1 l with
      | some r => some r
      | none => matchWordSeq 0 l

/-- Attempt the whole pattern at the current position: a digit run, a
whitespace run, then the street alternation. -/
def matchAt (l : List Char) : Option (String × String) :=
  let ds := l.takeWhile isDigitC
  let r1 := l.dropWhile isDigitC
  if ds.isEmpty then none
  else
    let sp := r1.takeWhile isSpaceC
    let r2 := r1.dropWhile isSpaceC
    if sp.isEmpty then none
    else
      match altMatch r2 with
      | some (t, _) => some (ds.asString, t.asString)
      | none => none

/-- Leftmost search for the pattern, mirroring re.search. -/
def reSearch : List Char → Option (String × String)
  | [] => none
  | c :: rest =>
    match matchAt (c :: rest) with
    | some r => some r
    | none => reSearch rest

/-- Remove every space character, mirroring str.replace of a space by the
empty string. -/
def removeSpaces (s : String) : String :=
  String.mk (s.data.filter (fun c => c != ' '))

/-- Uppercase every character, mirroring str.upper on ASCII data. -/
def pyUpper (s : String) : String := String.mk (s.data.map Char.toUpper)

/-- Strip leading and trailing whitespace, mirroring str.strip on ASCII
data. -/
def pyStrip (s : String) : String :=
  String.mk (((s.data.dropWhile isSpaceC).reverse.dropWhile isSpaceC).reverse)

/-- Derive the custom id from state, city and address, mirroring
create_custom_id. -/
def create_custom_id (state city address : String) : String :=
  let state_abbr := pyStrip (pyUpper (String.mk (state.data.take 3)))
  let city_abbr := pyUpper (String.mk ((city.data.filter (fun c => !(isSpaceC c))).take 4))
  match reSearch address.data with
  | some (address_num, street_raw) =>
    state_abbr ++ "-" ++ city_abbr ++ "-" ++ address_num ++ removeSpaces street_raw
  | none =>
    state_abbr ++ "-" ++ city_abbr ++ "-" ++ "0000" ++ "NoStreet"

/-- C6 counterexample: for state California, city Irvine, and address
14631 Deer Park St, the derived key is not CAL-IRVI-14631DeerPark: the
street alternation matches the full three words Deer Park St, so the
street token keeps the St suffix. -/
theorem create_custom_id_deerpark_refuted :
    ¬ (create_custom_id "California" "Irvine" "14631 Deer Park St" = "CAL-IRVI-14631DeerPark") := by
  decide

/-- C6 amended: deriving the key for state California, city Irvine, and
address 14631 Deer Park St yields exactly CAL-IRVI-14631DeerParkSt (first
3 characters of state uppercased, first 4 non-whitespace characters of
city uppercased, house-number digits, then the street token, which here
consists of the three street words with spaces removed). -/
theorem create_custom_id_deerpark :
    create_custom_id "California" "Irvine" "14631 Deer Park St" = "CAL-IRVI-14631DeerParkSt" := by
  decide

/-- Placement sanity check for the derived key, matching the digest of
hashlib on the same input. -/
theorem placement_example :
    primaryIdx "CAL-IRVI-14631DeerParkSt" = 2 ∧
      sha256Nat "CAL-IRVI-14631DeerParkSt" % 3 = 2 := by
  constructor
  · decide
  · decide

/-! ## Validation and stored-document helpers -/

/-- Test for a string value. -/
def isStrV : Value → Bool
  | Value.vstr _ => true
  | _ => false

/-- Test for an integer value. -/
def isIntV : Value → Bool
  | Value.vint _ => true
  | _ => false

/-- Test for a float value. -/
def isFloatV : Value → Bool
  | Value.vfloat _ => true
  | _ => false

/-- Test for an int-or-float value, mirroring isinstance(x, (int, float)). -/
def isNumV (v : Value) : Bool := isIntV v || isFloatV v

/-- Test for a list value. -/
def isListV : Value → Bool
  | Value.vlist _ => true
  | _ => false

/-- The property schema: required field names with their type tests. -/
def property_schema : List (String × (Value → Bool)) :=
  [("address", isStrV), ("city", isStrV), ("state", isStrV), ("zip_code", isIntV),
   ("price", isNumV), ("bedrooms", isIntV), ("bathrooms", isFloatV),
   ("square_footage", isIntV), ("type", isStrV), ("date_listed", isStrV),
   ("description", isStrV), ("images", isListV)]

/-- Fields that may be absent. -/
def optional_fields : List String := ["images"]

/-- Accumulated validation errors, one entry per missing or mistyped field,
mirroring validate_property_data (the entry stands for the message). -/
def validationErrors (property_data : Doc) : List String :=
  property_schema.foldl
    (fun errs kv =>
      match dGet property_data kv.1 with
      | none => if optional_fields.contains kv.1 then errs else errs ++ [kv.1]
      | some v => if kv.2 v then errs else errs ++ [kv.1])
    []

/-- String content of a document field, used where the source reads
property_data of a key known to be a string. -/
def vGetStr (d : Doc) (k : String) : String :=
  match dGet d k with
  | some (Value.vstr s) => s
  | _ => ""

/-- The filter find_one uses: the document's custom_id equals the given
string. -/
def matchesCid (custom_id : String) (d : Doc) : Bool :=
  dGet d "custom_id" == some (Value.vstr custom_id)

/-- Whether any shard holds a document with the custom id, mirroring
property_already_exists. -/
def property_already_exists (custom_id : String) (s : ShardState) : Bool :=
  (shardPairs s).any (fun p => p.2.any (matchesCid custom_id))

/-- Append a document to a named shard, mirroring insert_one. -/
def addDoc (s : ShardState) (name : String) (d : Doc) : ShardState :=
  putShard s name (getShard s name ++ [d])

/-- Result of a mutating operation: the reported outcome, the shard state
afterwards, and the trace of shard names a write was issued to. -/
structure OpResult where
  ok : Bool
  shards : ShardState
  writes : List String
  deriving DecidableEq

/-- Insert a property, mirroring insert_property.  The oracle failWrite
names the shards whose insert_one call fails by raising; a failed primary
write is caught by the outer handler and fails the operation, a failed
replica write is absorbed by duplicate_property. -/
def insert_property (property_data : Doc) (username : String) (s : ShardState)
    (failWrite : String → Bool) : OpResult :=
  if (validationErrors property_data).isEmpty then
    let custom_id := create_custom_id (vGetStr property_data "state")
      (vGetStr property_data "city") (vGetStr property_data "address")
    if property_already_exists custom_id s then
      ⟨false, s, []⟩
    else
      let pd1 := dSet property_data "custom_id" (Value.vstr custom_id)
      let pd2 := dSet pd1 "created_by" (Value.vstr username)
      let original_db := get_database custom_id
      if failWrite original_db then
        ⟨false, s, [original_db]⟩
      else
        let s1 := addDoc s original_db pd2
        let target_db_name := generate_hash_for_duplication custom_id original_db
        if failWrite target_db_name then
          ⟨true, s1, [original_db, target_db_name]⟩
        else
          ⟨true, addDoc s1 target_db_name pd2, [original_db, target_db_name]⟩
  else
    ⟨false, s, []⟩

/-! ## Search with cross-shard reconciliation -/

/-- Case-insensitive substring test, the reading of a $regex filter with
options i on the plain patterns the callers pass. -/
def containsSub : List Char → List Char → Bool
  | hay, pat =>
    if pat.isPrefixOf hay then true
    else
      match hay with
      | [] => false
      | _ :: t => containsSub t pat

/-- Lowercase every character. -/
def pyLower (s : String) : String := String.mk (s.data.map Char.toLower)

/-- A case-insensitive substring filter on a string field; a non-string
field never matches. -/
def regexFieldMatch (d : Doc) (k : String) (pat : String) : Bool :=
  match dGet d k with
  | some (Value.vstr s) => containsSub (pyLower s).data (pyLower pat).data
  | _ => false

/-- The query document search_property builds. -/
structure Query where
  qcid : Option String
  qcity : Option String
  qstate : Option String
  qtype : Option String
  qaddress : Option String

/-- Python truthiness of an optional string argument. -/
def truthy : Option String → Bool
  | none => false
  | some s => !s.isEmpty

/-- Build the query from the function parameters: a truthy custom_id takes
precedence, otherwise each truthy filter adds a case-insensitive regex. -/
def buildQuery (city state property_type address custom_id : Option String) : Query :=
  if truthy custom_id then
    ⟨custom_id, none, none, none, none⟩
  else
    ⟨none, if truthy city then city else none, if truthy state then state else none,
     if truthy property_type then property_type else none,
     if truthy address then address else none⟩

/-- Whether a stored document matches the query. -/
def matchesQuery (q : Query) (d : Doc) : Bool :=
  (match q.qcid with
   | none => true
   | some c => dGet d "custom_id" == some (Value.vstr c)) &&
  (match q.qcity with
   | none => true
   | some p => regexFieldMatch d "city" p) &&
  (match q.qstate with
   | none => true
   | some p => regexFieldMatch d "state" p) &&
  (match q.qtype with
   | none => true
   | some p => regexFieldMatch d "type" p) &&
  (match q.qaddress with
   | none => true
   | some p => regexFieldMatch d "address" p)

/-- The custom id under which a found document is keyed in the
reconciliation dictionary. -/
def keyOf (d : Doc) : String :=
  match dGet d "custom_id" with
  | some (Value.vstr s) => s
  | _ => ""

/-- Stamp the first source_db entry onto a newly reconciled document. -/
def setSource (name : String) (d : Doc) : Doc :=
  dSet d "source_db" (Value.vlist [name])

/-- Append a shard name to the source_db list of an already reconciled
document. -/
def appendSource (name : String) (d : Doc) : Doc :=
  match dGet d "source_db" with
  | some (Value.vlist l) => dSet d "source_db" (Value.vlist (l ++ [name]))
  | _ => dSet d "source_db" (Value.vlist [name])

/-- Merge one found document into the accumulating reconciliation
dictionary (an insertion-ordered association list keyed by custom id). -/
def insDoc (name : String) (acc : List (String × Doc)) (d : Doc) : List (String × Doc) :=
  let cid := keyOf d
  if acc.any (fun e => e.1 == cid) then
    acc.map (fun e => if e.1 == cid then (e.1, appendSource name e.2) else e)
  else
    acc ++ [(cid, setSource name d)]

/-- Fold the per-shard result sets into the reconciliation dictionary. -/
def reconcile (q : Query) (pairs : List (String × List Doc))
    (acc : List (String × Doc)) : List (String × Doc) :=
  pairs.foldl (fun a p => (p.2.filter (matchesQuery q)).foldl (insDoc p.1) a) acc

/-- Sort key for price sorting; stored prices are numeric. -/
def priceKey (d : Doc) : Rat :=
  match dGet d "price" with
  | some (Value.vint n) => (n : Rat)
  | some (Value.vfloat q) => q
  | _ => 0

/-- Insert into a sorted list. -/
def insertSorted (le : Doc → Doc → Bool) (d : Doc) : List Doc → List Doc
  | [] => [d]
  | x :: t => if le x d then x :: insertSorted le d t else d :: x :: t

/-- Insertion sort standing in for list.sort; the claims depend only on the
result being a permutation. -/
def isort (le : Doc → Doc → Bool) : List Doc → List Doc
  | [] => []
  | x :: t => insertSorted le x (isort le t)

/-- Search properties across every shard and reconcile by custom id,
mirroring search_property. -/
def search_property (city state property_type address custom_id sort_by_price : Option String)
    (s : ShardState) : List Doc :=
  let query := buildQuery city state property_type address custom_id
  let all_properties := reconcile query (shardPairs s) []
  let properties_list := all_properties.map (fun e => e.2)
  if truthy sort_by_price then
    isort
      (fun a b =>
        if sort_by_price == some "desc" then decide (priceKey b ≤ priceKey a)
        else decide (priceKey a ≤ priceKey b))
      properties_list
  else
    properties_list

/-! ## Update and delete -/

/-- Numeric value of a digit run. -/
def digitsToNat (l : List Char) : Nat :=
  l.foldl (fun a c => a * 10 + (c.toNat - 48)) 0

/-- Strip surrounding whitespace from a character list. -/
def stripChars (l : List Char) : List Char :=
  ((l.dropWhile isSpaceC).reverse.dropWhile isSpaceC).reverse

/-- Parse an optionally signed digit run, the plain decimal forms accepted
by Python's int constructor. -/
def pyParseInt (s : String) : Option Int :=
  match stripChars s.data with
  | [] => none
  | c :: rest =>
    if c = '+' then
      if !rest.isEmpty && rest.all isDigitC then some ((digitsToNat rest : Int)) else none
    else if c = '-' then
      if !rest.isEmpty && rest.all isDigitC then some (-(digitsToNat rest : Int)) else none
    else
      if (c :: rest).all isDigitC then some ((digitsToNat (c :: rest) : Int)) else none

/-- Parse an optionally signed decimal fraction, the plain forms accepted
by Python's float constructor, as a rational. -/
def pyParseFloat (s : String) : Option Rat :=
  let core := fun (l : List Char) (neg : Bool) =>
    let ip := l.takeWhile isDigitC
    let rest := l.dropWhile isDigitC
    let build := fun (ip fp : List Char) =>
      if ip.isEmpty && fp.isEmpty then none
      else
        let q : Rat := (digitsToNat ip : Rat) + (digitsToNat fp : Rat) / ((10 : Rat) ^ fp.length)
        some (if neg then -q else q)
    match rest with
    | [] => build ip []
    | p :: fp => if p = '.' && fp.all isDigitC then build ip fp else none
  match stripChars s.data with
  | [] => none
  | c :: rest =>
    if c = '+' then core rest false
    else if c = '-' then core rest true
    else core (c :: rest) false

/-- Coerce a value with Python's int constructor; a float is truncated
toward zero. -/
def toIntV : Value → Option Value
  | Value.vint n => some (Value.vint n)
  | Value.vfloat q => some (Value.vint (if 0 ≤ q then q.floor else q.ceil))
  | Value.vstr s =>
    match pyParseInt s with
    | some n => some (Value.vint n)
    | none => none
  | _ => none

/-- Coerce a value with Python's float constructor. -/
def toFloatV : Value → Option Value
  | Value.vint n => some (Value.vfloat (n : Rat))
  | Value.vfloat q => some (Value.vfloat q)
  | Value.vstr s =>
    match pyParseFloat s with
    | some q => some (Value.vfloat q)
    | none => none
  | _ => none

/-- The fields update_property coerces, with their target conversions. -/
def field_types : List (String × (Value → Option Value)) :=
  [("price", toIntV), ("bedrooms", toIntV), ("bathrooms", toFloatV)]

/-- Coerce every update value whose field appears in field_types; none on
the first failed conversion, mirroring the conversion loop. -/
def convertUpdates : List (String × Value) → Option (List (String × Value))
  | [] => some []
  | (k, v) :: rest =>
    let cv :=
      match field_types.find? (fun p => p.1 == k) with
      | some p => p.2 v
      | none => some v
    match cv with
    | none => none
    | some v2 =>
      match convertUpdates rest with
      | none => none
      | some r => some ((k, v2) :: r)

/-- Apply a $set update document to a stored document. -/
def applySet (upd : List (String × Value)) (d : Doc) : Doc :=
  upd.foldl (fun acc kv => dSet acc kv.1 kv.2) d

/-- Update the first document satisfying the filter, mirroring update_one;
the flag reports whether a document matched. -/
def updateFirst (p : Doc → Bool) (f : Doc → Doc) : List Doc → List Doc × Bool
  | [] => ([], false)
  | d :: rest =>
    if p d then (f d :: rest, true)
    else
      let r := updateFirst p f rest
      (d :: r.1, r.2)

/-- Remove the first document satisfying the filter, mirroring delete_one;
the flag reports whether a document was deleted. -/
def removeFirst (p : Doc → Bool) : List Doc → List Doc × Bool
  | [] => ([], false)
  | d :: rest =>
    if p d then (rest, true)
    else
      let r := removeFirst p rest
      (d :: r.1, r.2)

/-- Update a property across every shard after coercion and the creator
check against the primary copy, mirroring update_property. -/
def update_property (custom_id : String) (updates : List (String × Value))
    (username : String) (s : ShardState) : OpResult :=
  match convertUpdates updates with
  | none => ⟨false, s, []⟩
  | some upd =>
    let original_db := get_database custom_id
    match (getShard s original_db).find? (matchesCid custom_id) with
    | none => ⟨false, s, []⟩
    | some property_data =>
      if dGet property_data "created_by" == some (Value.vstr username) then
        let fin := DATABASE_NAMES.foldl
          (fun (acc : ShardState × List String) name =>
            let r := updateFirst (matchesCid custom_id) (applySet upd) (getShard acc.1 name)
            (putShard acc.1 name r.1, acc.2 ++ [name]))
          (s, [])
        ⟨true, fin.1, fin.2⟩
      else
        ⟨false, s, []⟩

/-- Delete a property from every shard after the creator check against the
primary copy, mirroring delete_property; success needs a deletion somewhere
and an attempt on every shard. -/
def delete_property (custom_id : String) (username : String) (s : ShardState) : OpResult :=
  let original_db := get_database custom_id
  match (getShard s original_db).find? (matchesCid custom_id) with
  | none => ⟨false, s, []⟩
  | some property_data =>
    if dGet property_data "created_by" == some (Value.vstr username) then
      let fin := DATABASE_NAMES.foldl
        (fun (acc : ShardState × Bool × List String) name =>
          let r := removeFirst (matchesCid custom_id) (getShard acc.1 name)
          (putShard acc.1 name r.1, acc.2.1 || r.2, acc.2.2 ++ [name]))
        (s, false, [])
      if fin.2.1 && (fin.2.2.length == DATABASE_NAMES.length) then
        ⟨true, fin.1, fin.2.2⟩
      else
        ⟨false, fin.1, fin.2.2⟩
    else
      ⟨false, s, []⟩

/-! ## Placement lemmas -/

theorem databaseNames_length : DATABASE_NAMES.length = 4 := rfl

theorem primaryIdx_lt (custom_id : String) : primaryIdx custom_id < DATABASE_NAMES.length := by
  show sha256Nat custom_id % 4 < 4
  omega

theorem findIdx_getD (k : Nat) (hk : k < 4) :
    DATABASE_NAMES.findIdx (fun n => n == DATABASE_NAMES.getD k "") = k := by
  have : ∀ k, k < 4 → DATABASE_NAMES.findIdx (fun n => n == DATABASE_NAMES.getD k "") = k := by
    decide
  exact this k hk

theorem dupTargetIdx_lt (custom_id : String) :
    dupTargetIdx custom_id (get_database custom_id) < DATABASE_NAMES.length := by
  have h4 : sha256Nat custom_id % 4 < 4 := by omega
  simp only [dupTargetIdx, get_database, primaryIdx, databaseNames_length, findIdx_getD _ h4]
  split <;> omega

theorem dupTargetIdx_ne (custom_id : String) :
    dupTargetIdx custom_id (get_database custom_id) ≠ primaryIdx custom_id := by
  have h4 : sha256Nat custom_id % 4 < 4 := by omega
  simp only [dupTargetIdx, get_database, primaryIdx, databaseNames_length, findIdx_getD _ h4]
  split <;> omega

theorem getD_mem (k : Nat) (hk : k < 4) : DATABASE_NAMES.getD k "" ∈ DATABASE_NAMES := by
  have : ∀ k, k < 4 → DATABASE_NAMES.getD k "" ∈ DATABASE_NAMES := by decide
  exact this k hk

theorem getD_inj (i j : Nat) (hi : i < 4) (hj : j < 4) (hij : i ≠ j) :
    DATABASE_NAMES.getD i "" ≠ DATABASE_NAMES.getD j "" := by
  have : ∀ i, i < 4 → ∀ j, j < 4 → i ≠ j →
      DATABASE_NAMES.getD i "" ≠ DATABASE_NAMES.getD j "" := by
    decide
  exact this i hi j hj hij

theorem get_database_mem (custom_id : String) : get_database custom_id ∈ DATABASE_NAMES :=
  getD_mem _ (primaryIdx_lt custom_id)

theorem dup_name_mem (custom_id : String) :
    generate_hash_for_duplication custom_id (get_database custom_id) ∈ DATABASE_NAMES :=
  getD_mem _ (by simpa using dupTargetIdx_lt custom_id)

theorem dup_name_ne (custom_id : String) :
    generate_hash_for_duplication custom_id (get_database custom_id) ≠ get_database custom_id :=
  getD_inj _ _ (by simpa using dupTargetIdx_lt custom_id) (primaryIdx_lt custom_id)
    (dupTargetIdx_ne custom_id)

/-- C3: for every custom_id and the fixed shard list of size 4, the primary
placement (SHA-256 of the id mod 4) and the replica placement (the same
hash mod 3, shifted up by one when the primary index is at most the
candidate) are both indices in [0, 4), the two are always distinct, and
both placement functions are deterministic. -/
theorem primary_replica_distinct (custom_id : String) :
    primaryIdx custom_id < DATABASE_NAMES.length ∧
    dupTargetIdx custom_id (get_database custom_id) < DATABASE_NAMES.length ∧
    dupTargetIdx custom_id (get_database custom_id) ≠ primaryIdx custom_id ∧
    get_database custom_id = get_database custom_id ∧
    generate_hash_for_duplication custom_id (get_database custom_id) =
      generate_hash_for_duplication custom_id (get_database custom_id) :=
  ⟨primaryIdx_lt custom_id, dupTargetIdx_lt custom_id, dupTargetIdx_ne custom_id, rfl, rfl⟩

/-! ## Shard access lemmas -/

theorem getShard_db1 (s : ShardState) : getShard s "properties_db1" = s.db1 := rfl

theorem getShard_db2 (s : ShardState) : getShard s "properties_db2" = s.db2 := rfl

theorem getShard_db3 (s : ShardState) : getShard s "properties_db3" = s.db3 := rfl

theorem getShard_db4 (s : ShardState) : getShard s "properties_db4" = s.db4 := rfl

theorem getShard_putShard_self (s : ShardState) (name : String) (docs : List Doc)
    (h : name ∈ DATABASE_NAMES) : getShard (putShard s name docs) name = docs := by
  fin_cases h <;> rfl

theorem getShard_putShard_ne (s : ShardState) (name name' : String) (docs : List Doc)
    (h : name ≠ name') : getShard (putShard s name docs) name' = getShard s name' := by
  simp only [putShard, getShard]
  split_ifs <;> simp_all

theorem getShard_addDoc_self (s : ShardState) (name : String) (d : Doc)
    (h : name ∈ DATABASE_NAMES) : getShard (addDoc s name d) name = getShard s name ++ [d] :=
  getShard_putShard_self s name _ h

theorem getShard_addDoc_ne (s : ShardState) (name name' : String) (d : Doc)
    (h : name ≠ name') : getShard (addDoc s name d) name' = getShard s name' :=
  getShard_putShard_ne s name name' _ h

theorem mem_getShard_addDoc (s : ShardState) (n : String) (d0 : Doc) (name : String) (d : Doc)
    (hn : n ∈ DATABASE_NAMES) (hd : d ∈ getShard (addDoc s n d0) name) :
    d ∈ getShard s name ∨ d = d0 := by
  by_cases h : n = name
  · subst h
    rw [getShard_addDoc_self s n d0 hn] at hd
    rcases List.mem_append.1 hd with h' | h'
    · exact Or.inl h'
    · exact Or.inr (List.mem_singleton.1 h')
  · rw [getShard_addDoc_ne s n name d0 h] at hd
    exact Or.inl hd

theorem exists_of_mem_shard (cid : String) (s : ShardState) (name : String)
    (hmem : name ∈ DATABASE_NAMES) (d : Doc) (hd : d ∈ getShard s name)
    (hm : matchesCid cid d = true) : property_already_exists cid s = true := by
  simp only [property_already_exists, shardPairs, List.any_cons, List.any_nil,
    Bool.or_eq_true, Bool.or_false, List.any_eq_true]
  fin_cases hmem
  · exact Or.inl ⟨d, (getShard_db1 s) ▸ hd, hm⟩
  · exact Or.inr (Or.inl ⟨d, (getShard_db2 s) ▸ hd, hm⟩)
  · exact Or.inr (Or.inr (Or.inl ⟨d, (getShard_db3 s) ▸ hd, hm⟩))
  · exact Or.inr (Or.inr (Or.inr ⟨d, (getShard_db4 s) ▸ hd, hm⟩))

/-! ## Insert claims -/

/-- The custom id insert_property derives from a candidate record. -/
def derivedCid (pd : Doc) : String :=
  create_custom_id (vGetStr pd "state") (vGetStr pd "city") (vGetStr pd "address")

/-- The record as stored: custom_id and created_by stamped on. -/
def stamped (pd : Doc) (u : String) : Doc :=
  dSet (dSet pd "custom_id" (Value.vstr (derivedCid pd))) "created_by" (Value.vstr u)

theorem insert_property_success_shape (pd : Doc) (u : String) (s : ShardState)
    (fw : String → Bool)
    (hvalid : (validationErrors pd).isEmpty = true)
    (hnew : property_already_exists (derivedCid pd) s = false)
    (hfw1 : fw (get_database (derivedCid pd)) = false)
    (hfw2 : fw (generate_hash_for_duplication (derivedCid pd) (get_database (derivedCid pd))) = false) :
    insert_property pd u s fw =
      ⟨true,
       addDoc (addDoc s (get_database (derivedCid pd)) (stamped pd u))
         (generate_hash_for_duplication (derivedCid pd) (get_database (derivedCid pd)))
         (stamped pd u),
       [get_database (derivedCid pd),
        generate_hash_for_duplication (derivedCid pd) (get_database (derivedCid pd))]⟩ := by
  simp only [insert_property, hvalid, if_true]
  rw [show create_custom_id (vGetStr pd "state") (vGetStr pd "city") (vGetStr pd "address") =
    derivedCid pd from rfl]
  simp [hnew, hfw1, hfw2, stamped]

theorem stamped_matches (pd : Doc) (u : String) :
    matchesCid (derivedCid pd) (stamped pd u) = true := by
  simp only [matchesCid, stamped]
  rw [dGet_dSet_diff _ _ _ _ (by decide), dGet_dSet_same]
  simp

theorem insert_property_dup (pd : Doc) (u : String) (s : ShardState) (fw : String → Bool)
    (hvalid : (validationErrors pd).isEmpty = true)
    (hexists : property_already_exists (derivedCid pd) s = true) :
    insert_property pd u s fw = ⟨false, s, []⟩ := by
  simp only [insert_property, hvalid, if_true]
  rw [show create_custom_id (vGetStr pd "state") (vGetStr pd "city")
    (vGetStr pd "address") = derivedCid pd from rfl]
  simp [hexists]

/-- C5: for every valid candidate record whose derived custom_id already
occurs in at least one shard, insert_property fails and performs no write
to any shard, leaving every shard exactly as before; in particular a second
insert of a record with the same (state, city, address) triple after a
successful fault-free first insert fails with no new shard writes. -/
theorem insert_duplicate_no_write (property_data : Doc) (username : String) (s : ShardState)
    (fw : String → Bool)
    (hvalid : (validationErrors property_data).isEmpty = true)
    (hexists : property_already_exists (derivedCid property_data) s = true) :
    insert_property property_data username s fw = ⟨false, s, []⟩ ∧
    ∀ (pd_b : Doc) (u1 u2 : String) (s0 : ShardState) (fw2 : String → Bool),
      (validationErrors pd_b).isEmpty = true →
      vGetStr pd_b "state" = vGetStr property_data "state" →
      vGetStr pd_b "city" = vGetStr property_data "city" →
      vGetStr pd_b "address" = vGetStr property_data "address" →
      (insert_property property_data u1 s0 (fun _ => false)).ok = true →
      insert_property pd_b u2 (insert_property property_data u1 s0 (fun _ => false)).shards fw2 =
        ⟨false, (insert_property property_data u1 s0 (fun _ => false)).shards, []⟩ := by
  constructor
  · exact insert_property_dup property_data username s fw hvalid hexists
  · intro pd_b u1 u2 s0 fw2 hv2 hst hci had hok
    have hcidb : derivedCid pd_b = derivedCid property_data := by
      simp only [derivedCid, hst, hci, had]
    by_cases hex1 : property_already_exists (derivedCid property_data) s0 = true
    · rw [insert_property_dup property_data u1 s0 (fun _ => false) hvalid hex1] at hok
      simp at hok
    · have hex1' : property_already_exists (derivedCid property_data) s0 = false := by
        simpa using hex1
      have hr := insert_property_success_shape property_data u1 s0 (fun _ => false)
        hvalid hex1' rfl rfl
      rw [hr]
      dsimp only
      have hin : stamped property_data u1 ∈
          getShard
            (addDoc (addDoc s0 (get_database (derivedCid property_data)) (stamped property_data u1))
              (generate_hash_for_duplication (derivedCid property_data)
                (get_database (derivedCid property_data)))
              (stamped property_data u1))
            (get_database (derivedCid property_data)) := by
        rw [getShard_addDoc_ne _ _ _ _ (dup_name_ne (derivedCid property_data)),
          getShard_addDoc_self _ _ _ (get_database_mem (derivedCid property_data))]
        exact List.mem_append_right _ (List.mem_singleton.2 rfl)
      have hex2 : property_already_exists (derivedCid property_data)
          (addDoc (addDoc s0 (get_database (derivedCid property_data)) (stamped property_data u1))
            (generate_hash_for_duplication (derivedCid property_data)
              (get_database (derivedCid property_data)))
            (stamped property_data u1)) = true :=
        exists_of_mem_shard _ _ _ (get_database_mem (derivedCid property_data)) _ hin
          (stamped_matches property_data u1)
      have hex3 : property_already_exists (derivedCid pd_b)
          (addDoc (addDoc s0 (get_database (derivedCid property_data)) (stamped property_data u1))
            (generate_hash_for_duplication (derivedCid property_data)
              (get_database (derivedCid property_data)))
            (stamped property_data u1)) = true := by
        rw [hcidb]
        exact hex2
      exact insert_property_dup pd_b u2 _ fw2 hv2 hex3

/-- C4: insert_property handles the two write failures asymmetrically: a
failed primary write fails the whole insert with no replica attempt (the
only write issued is the primary, which is a different shard from the
replica), while a failed replica write after a successful primary write is
absorbed: the primary write stays and the operation still succeeds. -/
theorem insert_write_failure_asymmetry (property_data : Doc) (username : String)
    (s : ShardState) (fw : String → Bool)
    (hvalid : (validationErrors property_data).isEmpty = true)
    (hnew : property_already_exists (derivedCid property_data) s = false) :
    insert_property property_data username s fw =
      (if fw (get_database (derivedCid property_data)) then
        ⟨false, s, [get_database (derivedCid property_data)]⟩
       else if fw (generate_hash_for_duplication (derivedCid property_data)
           (get_database (derivedCid property_data))) then
        ⟨true, addDoc s (get_database (derivedCid property_data)) (stamped property_data username),
         [get_database (derivedCid property_data),
          generate_hash_for_duplication (derivedCid property_data)
            (get_database (derivedCid property_data))]⟩
       else
        ⟨true,
         addDoc (addDoc s (get_database (derivedCid property_data)) (stamped property_data username))
           (generate_hash_for_duplication (derivedCid property_data)
             (get_database (derivedCid property_data)))
           (stamped property_data username),
         [get_database (derivedCid property_data),
          generate_hash_for_duplication (derivedCid property_data)
            (get_database (derivedCid property_data))]⟩) ∧
    generate_hash_for_duplication (derivedCid property_data)
        (get_database (derivedCid property_data)) ≠
      get_database (derivedCid property_data) := by
  refine ⟨?_, dup_name_ne (derivedCid property_data)⟩
  simp only [insert_property, hvalid, if_true]
  rw [show create_custom_id (vGetStr property_data "state") (vGetStr property_data "city")
    (vGetStr property_data "address") = derivedCid property_data from rfl]
  simp [hnew, stamped]

/-- The worked example record of the specification without its optional
images field. -/
def imagesAbsentRecord : Doc :=
  [("address", Value.vstr "14631 Deer Park St"), ("city", Value.vstr "Irvine"),
   ("state", Value.vstr "California"), ("zip_code", Value.vint 92604),
   ("price", Value.vint 1688888), ("bedrooms", Value.vint 4),
   ("bathrooms", Value.vfloat 3), ("square_footage", Value.vint 2089),
   ("type", Value.vstr "sale"), ("date_listed", Value.vstr "2024-04-01"),
   ("description", Value.vstr "Charming downtown home")]

/-- C4 witness: with the primary shard failing its write, the insert of the
example record into empty shards fails, issues only the primary write, and
changes nothing. -/
theorem insert_write_failure_asymmetry_witness :
    insert_property imagesAbsentRecord "alice" ⟨[], [], [], []⟩
        (fun n => n == "properties_db3") =
      ⟨false, ⟨[], [], [], []⟩, ["properties_db3"]⟩ := by
  have h := insert_write_failure_asymmetry imagesAbsentRecord "alice" ⟨[], [], [], []⟩
    (fun n => n == "properties_db3") (by decide) (by decide)
  rw [h.1]
  decide

/-- C9 counterexample: inserting the valid example record with no images
field succeeds, but the copies stored in the primary and replica shards
have no images binding at all, not an images field equal to the empty
list. -/
theorem insert_images_default_refuted :
    (insert_property imagesAbsentRecord "alice" ⟨[], [], [], []⟩ (fun _ => false)).ok = true ∧
    (getShard (insert_property imagesAbsentRecord "alice" ⟨[], [], [], []⟩
        (fun _ => false)).shards "properties_db3").length = 1 ∧
    (getShard (insert_property imagesAbsentRecord "alice" ⟨[], [], [], []⟩
        (fun _ => false)).shards "properties_db4").length = 1 ∧
    ((getShard (insert_property imagesAbsentRecord "alice" ⟨[], [], [], []⟩
        (fun _ => false)).shards "properties_db3").all
      (fun d => dGet d "images" == none)) = true ∧
    ((getShard (insert_property imagesAbsentRecord "alice" ⟨[], [], [], []⟩
        (fun _ => false)).shards "properties_db4").all
      (fun d => dGet d "images" == none)) = true := by
  refine ⟨?_, ?_, ?_, ?_, ?_⟩ <;> decide

/-- C9 amended: for every valid candidate record in which the images field
is absent, a fault-free insert succeeds, and every newly stored copy of
the record carries no images field (the field is not defaulted to an empty
list). -/
theorem insert_images_absent (property_data : Doc) (username : String) (s : ShardState)
    (hvalid : (validationErrors property_data).isEmpty = true)
    (hnoimg : dGet property_data "images" = none)
    (hnew : property_already_exists (derivedCid property_data) s = false) :
    (insert_property property_data username s (fun _ => false)).ok = true ∧
    ∀ (name : String) (d : Doc),
      d ∈ getShard (insert_property property_data username s (fun _ => false)).shards name →
      d ∉ getShard s name → dGet d "images" = none := by
  have hr := insert_property_success_shape property_data username s (fun _ => false)
    hvalid hnew rfl rfl
  rw [hr]
  dsimp only
  refine ⟨rfl, ?_⟩
  intro name d hd hnot
  have himg : dGet (stamped property_data username) "images" = none := by
    simp only [stamped]
    rw [dGet_dSet_diff _ _ _ _ (by decide), dGet_dSet_diff _ _ _ _ (by decide)]
    exact hnoimg
  rcases mem_getShard_addDoc _ _ _ _ _ (dup_name_mem (derivedCid property_data)) hd with h1 | h1
  · rcases mem_getShard_addDoc _ _ _ _ _ (get_database_mem (derivedCid property_data)) h1 with h2 | h2
    · exact absurd h2 hnot
    · rw [h2]
      exact himg
  · rw [h1]
    exact himg

/-- C9 witness for the amended claim: the fault-free insert of the example
record into empty shards succeeds. -/
theorem insert_images_absent_witness :
    (insert_property imagesAbsentRecord "alice" ⟨[], [], [], []⟩ (fun _ => false)).ok = true :=
  (insert_images_absent imagesAbsentRecord "alice" ⟨[], [], [], []⟩
    (by decide) (by decide) (by decide)).1

/-- C5 witness: inserting the example record when a record with its derived
custom id is already present in shard 1 fails and leaves the shards
unchanged. -/
theorem insert_duplicate_no_write_witness :
    insert_property imagesAbsentRecord "bob"
        ⟨[[("custom_id", Value.vstr "CAL-IRVI-14631DeerParkSt")]], [], [], []⟩
        (fun _ => false) =
      ⟨false, ⟨[[("custom_id", Value.vstr "CAL-IRVI-14631DeerParkSt")]], [], [], []⟩, []⟩ :=
  (insert_duplicate_no_write imagesAbsentRecord "bob"
    ⟨[[("custom_id", Value.vstr "CAL-IRVI-14631DeerParkSt")]], [], [], []⟩
    (fun _ => false) (by decide) (by decide)).1

/-! ## Concrete shard access equations -/

theorem getShard_putShard_11 (s : ShardState) (docs : List Doc) :
    getShard (putShard s "properties_db1" docs) "properties_db1" = docs := rfl

theorem getShard_putShard_12 (s : ShardState) (docs : List Doc) :
    getShard (putShard s "properties_db1" docs) "properties_db2" = s.db2 := rfl

theorem getShard_putShard_13 (s : ShardState) (docs : List Doc) :
    getShard (putShard s "properties_db1" docs) "properties_db3" = s.db3 := rfl

theorem getShard_putShard_14 (s : ShardState) (docs : List Doc) :
    getShard (putShard s "properties_db1" docs) "properties_db4" = s.db4 := rfl

theorem getShard_putShard_21 (s : ShardState) (docs : List Doc) :
    getShard (putShard s "properties_db2" docs) "properties_db1" = s.db1 := rfl

theorem getShard_putShard_22 (s : ShardState) (docs : List Doc) :
    getShard (putShard s "properties_db2" docs) "properties_db2" = docs := rfl

theorem getShard_putShard_23 (s : ShardState) (docs : List Doc) :
    getShard (putShard s "properties_db2" docs) "properties_db3" = s.db3 := rfl

theorem getShard_putShard_24 (s : ShardState) (docs : List Doc) :
    getShard (putShard s "properties_db2" docs) "properties_db4" = s.db4 := rfl

theorem getShard_putShard_31 (s : ShardState) (docs : List Doc) :
    getShard (putShard s "properties_db3" docs) "properties_db1" = s.db1 := rfl

theorem getShard_putShard_32 (s : ShardState) (docs : List Doc) :
    getShard (putShard s "properties_db3" docs) "properties_db2" = s.db2 := rfl

theorem getShard_putShard_33 (s : ShardState) (docs : List Doc) :
    getShard (putShard s "properties_db3" docs) "properties_db3" = docs := rfl

theorem getShard_putShard_34 (s : ShardState) (docs : List Doc) :
    getShard (putShard s "properties_db3" docs) "properties_db4" = s.db4 := rfl

theorem getShard_putShard_41 (s : ShardState) (docs : List Doc) :
    getShard (putShard s "properties_db4" docs) "properties_db1" = s.db1 := rfl

theorem getShard_putShard_42 (s : ShardState) (docs : List Doc) :
    getShard (putShard s "properties_db4" docs) "properties_db2" = s.db2 := rfl

theorem getShard_putShard_43 (s : ShardState) (docs : List Doc) :
    getShard (putShard s "properties_db4" docs) "properties_db3" = s.db3 := rfl

theorem getShard_putShard_44 (s : ShardState) (docs : List Doc) :
    getShard (putShard s "properties_db4" docs) "properties_db4" = docs := rfl

theorem putShard_proj_11 (s : ShardState) (docs : List Doc) :
    (putShard s "properties_db1" docs).db1 = docs := rfl

theorem putShard_proj_12 (s : ShardState) (docs : List Doc) :
    (putShard s "properties_db1" docs).db2 = s.db2 := rfl

theorem putShard_proj_13 (s : ShardState) (docs : List Doc) :
    (putShard s "properties_db1" docs).db3 = s.db3 := rfl

theorem putShard_proj_14 (s : ShardState) (docs : List Doc) :
    (putShard s "properties_db1" docs).db4 = s.db4 := rfl

theorem putShard_proj_21 (s : ShardState) (docs : List Doc) :
    (putShard s "properties_db2" docs).db1 = s.db1 := rfl

theorem putShard_proj_22 (s : ShardState) (docs : List Doc) :
    (putShard s "properties_db2" docs).db2 = docs := rfl

theorem putShard_proj_23 (s : ShardState) (docs : List Doc) :
    (putShard s "properties_db2" docs).db3 = s.db3 := rfl

theorem putShard_proj_24 (s : ShardState) (docs : List Doc) :
    (putShard s "properties_db2" docs).db4 = s.db4 := rfl

theorem putShard_proj_31 (s : ShardState) (docs : List Doc) :
    (putShard s "properties_db3" docs).db1 = s.db1 := rfl

theorem putShard_proj_32 (s : ShardState) (docs : List Doc) :
    (putShard s "properties_db3" docs).db2 = s.db2 := rfl

theorem putShard_proj_33 (s : ShardState) (docs : List Doc) :
    (putShard s "properties_db3" docs).db3 = docs := rfl

theorem putShard_proj_34 (s : ShardState) (docs : List Doc) :
    (putShard s "properties_db3" docs).db4 = s.db4 := rfl

theorem putShard_proj_41 (s : ShardState) (docs : List Doc) :
    (putShard s "properties_db4" docs).db1 = s.db1 := rfl

theorem putShard_proj_42 (s : ShardState) (docs : List Doc) :
    (putShard s "properties_db4" docs).db2 = s.db2 := rfl

theorem putShard_proj_43 (s : ShardState) (docs : List Doc) :
    (putShard s "properties_db4" docs).db3 = s.db3 := rfl

theorem putShard_proj_44 (s : ShardState) (docs : List Doc) :
    (putShard s "properties_db4" docs).db4 = docs := rfl

theorem removeFirst_snd (p : Doc → Bool) (l : List Doc) : (removeFirst p l).2 = l.any p := by
  induction l with
  | nil => rfl
  | cons d rest ih =>
    by_cases h : p d = true
    · simp [removeFirst, h]
    · simp only [removeFirst, List.any_cons]
      rw [if_neg (by simp [h])]
      simp [h, ih]

/-! ## Authorization claims -/

/-- C2: for every custom_id, shard state, and requesting username such that
the primary shard's copy is absent or has a different creator, both
update_property and delete_property return the failure result, leave every
shard unchanged, and issue no write to any shard. -/
theorem unauthorized_mutation_rejected (custom_id : String) (updates : List (String × Value))
    (username : String) (s : ShardState)
    (hauth : ∀ d, (getShard s (get_database custom_id)).find? (matchesCid custom_id) = some d →
      ¬ (dGet d "created_by" = some (Value.vstr username))) :
    update_property custom_id updates username s = ⟨false, s, []⟩ ∧
    delete_property custom_id username s = ⟨false, s, []⟩ := by
  constructor
  · unfold update_property
    cases hc : convertUpdates updates with
    | none => rfl
    | some upd =>
      cases hf : (getShard s (get_database custom_id)).find? (matchesCid custom_id) with
      | none => simp [hf]
      | some d =>
        have hne := hauth d hf
        have hbeq : (dGet d "created_by" == some (Value.vstr username)) = false := by
          simpa using hne
        simp [hf, hbeq]
  · unfold delete_property
    cases hf : (getShard s (get_database custom_id)).find? (matchesCid custom_id) with
    | none => simp [hf]
    | some d =>
      have hne := hauth d hf
      have hbeq : (dGet d "created_by" == some (Value.vstr username)) = false := by
        simpa using hne
      simp [hf, hbeq]

/-- C2 witness: bob may not delete or update alice's record; the record
sits in its primary shard properties_db3 under creator alice. -/
theorem unauthorized_mutation_rejected_witness :
    update_property "CAL-IRVI-14631DeerParkSt" [("bedrooms", Value.vint 5)] "bob"
        ⟨[], [], [[("custom_id", Value.vstr "CAL-IRVI-14631DeerParkSt"),
                   ("created_by", Value.vstr "alice")]], []⟩ =
      ⟨false,
       ⟨[], [], [[("custom_id", Value.vstr "CAL-IRVI-14631DeerParkSt"),
                  ("created_by", Value.vstr "alice")]], []⟩, []⟩ ∧
    delete_property "CAL-IRVI-14631DeerParkSt" "bob"
        ⟨[], [], [[("custom_id", Value.vstr "CAL-IRVI-14631DeerParkSt"),
                   ("created_by", Value.vstr "alice")]], []⟩ =
      ⟨false,
       ⟨[], [], [[("custom_id", Value.vstr "CAL-IRVI-14631DeerParkSt"),
                  ("created_by", Value.vstr "alice")]], []⟩, []⟩ :=
  unauthorized_mutation_rejected "CAL-IRVI-14631DeerParkSt" [("bedrooms", Value.vint 5)] "bob"
    ⟨[], [], [[("custom_id", Value.vstr "CAL-IRVI-14631DeerParkSt"),
               ("created_by", Value.vstr "alice")]], []⟩
    (by decide)

/-- C8: every update_property call that passes the authorization check and
whose numeric coercions succeed reports success, no matter how many shards
held a matching document, and the update is attempted against every
configured shard. -/
theorem update_reports_success (custom_id : String) (updates : List (String × Value))
    (username : String) (s : ShardState) (upd : List (String × Value)) (d : Doc)
    (hconv : convertUpdates updates = some upd)
    (hfind : (getShard s (get_database custom_id)).find? (matchesCid custom_id) = some d)
    (hcreator : dGet d "created_by" = some (Value.vstr username)) :
    (update_property custom_id updates username s).ok = true ∧
    (update_property custom_id updates username s).writes = DATABASE_NAMES := by
  unfold update_property
  simp only [hconv, hfind, hcreator, beq_self_eq_true, if_true]
  simp [DATABASE_NAMES, getShard_db1, getShard_db2, getShard_db3, getShard_db4, putShard_proj_11, putShard_proj_12, putShard_proj_13, putShard_proj_14, putShard_proj_21, putShard_proj_22, putShard_proj_23, putShard_proj_24, putShard_proj_31, putShard_proj_32, putShard_proj_33, putShard_proj_34, putShard_proj_41, putShard_proj_42, putShard_proj_43, putShard_proj_44]

/-- C8 witness: alice's authorized update of her record, with an integer
bedrooms value, succeeds and is attempted on all four shards. -/
theorem update_reports_success_witness :
    (update_property "CAL-IRVI-14631DeerParkSt" [("bedrooms", Value.vint 5)] "alice"
        ⟨[], [], [[("custom_id", Value.vstr "CAL-IRVI-14631DeerParkSt"),
                   ("created_by", Value.vstr "alice")]], []⟩).ok = true ∧
    (update_property "CAL-IRVI-14631DeerParkSt" [("bedrooms", Value.vint 5)] "alice"
        ⟨[], [], [[("custom_id", Value.vstr "CAL-IRVI-14631DeerParkSt"),
                   ("created_by", Value.vstr "alice")]], []⟩).writes = DATABASE_NAMES :=
  update_reports_success "CAL-IRVI-14631DeerParkSt" [("bedrooms", Value.vint 5)] "alice"
    ⟨[], [], [[("custom_id", Value.vstr "CAL-IRVI-14631DeerParkSt"),
               ("created_by", Value.vstr "alice")]], []⟩
    [("bedrooms", Value.vint 5)]
    [("custom_id", Value.vstr "CAL-IRVI-14631DeerParkSt"), ("created_by", Value.vstr "alice")]
    (by decide) (by decide) (by decide)

/-- C7: for every authorized delete_property call, the reported result is
success exactly when at least one shard actually removed a document and
the delete was attempted against all four configured shards. -/
theorem delete_success_iff (custom_id : String) (username : String) (s : ShardState) (d : Doc)
    (hfind : (getShard s (get_database custom_id)).find? (matchesCid custom_id) = some d)
    (hcreator : dGet d "created_by" = some (Value.vstr username)) :
    (delete_property custom_id username s).ok = true ↔
      ((shardPairs s).any (fun p => p.2.any (matchesCid custom_id)) = true ∧
        (delete_property custom_id username s).writes.length = DATABASE_NAMES.length) := by
  unfold delete_property
  simp only [hfind, hcreator, beq_self_eq_true, if_true]
  simp only [DATABASE_NAMES, List.foldl_cons, List.foldl_nil,
    getShard_db1, getShard_db2, getShard_db3, getShard_db4, putShard_proj_11, putShard_proj_12, putShard_proj_13, putShard_proj_14, putShard_proj_21, putShard_proj_22, putShard_proj_23, putShard_proj_24, putShard_proj_31, putShard_proj_32, putShard_proj_33, putShard_proj_34, putShard_proj_41, putShard_proj_42, putShard_proj_43, putShard_proj_44]
  simp only [removeFirst_snd, shardPairs, List.any_cons, List.any_nil,
    getShard_db1, getShard_db2, getShard_db3, getShard_db4, Bool.or_false, Bool.false_or]
  by_cases h1 : s.db1.any (matchesCid custom_id) = true <;>
    by_cases h2 : s.db2.any (matchesCid custom_id) = true <;>
    by_cases h3 : s.db3.any (matchesCid custom_id) = true <;>
    by_cases h4 : s.db4.any (matchesCid custom_id) = true <;>
    simp [h1, h2, h3, h4]

/-- C7 witness: alice's authorized delete of her record stored only in its
primary shard succeeds, with one actual removal and four attempts. -/
theorem delete_success_iff_witness :
    (delete_property "CAL-IRVI-14631DeerParkSt" "alice"
        ⟨[], [], [[("custom_id", Value.vstr "CAL-IRVI-14631DeerParkSt"),
                   ("created_by", Value.vstr "alice")]], []⟩).ok = true ↔
      ((shardPairs ⟨[], [], [[("custom_id", Value.vstr "CAL-IRVI-14631DeerParkSt"),
            ("created_by", Value.vstr "alice")]], []⟩).any
          (fun p => p.2.any (matchesCid "CAL-IRVI-14631DeerParkSt")) = true ∧
        (delete_property "CAL-IRVI-14631DeerParkSt" "alice"
            ⟨[], [], [[("custom_id", Value.vstr "CAL-IRVI-14631DeerParkSt"),
                       ("created_by", Value.vstr "alice")]], []⟩).writes.length =
          DATABASE_NAMES.length) :=
  delete_success_iff "CAL-IRVI-14631DeerParkSt" "alice"
    ⟨[], [], [[("custom_id", Value.vstr "CAL-IRVI-14631DeerParkSt"),
               ("created_by", Value.vstr "alice")]], []⟩
    [("custom_id", Value.vstr "CAL-IRVI-14631DeerParkSt"), ("created_by", Value.vstr "alice")]
    (by decide) (by decide)

/-! ## Reconciliation lemmas

The reconciliation fold is analysed over the flattened list of
(shard name, matching document) occurrences, in shard-list order. -/

/-- The matching occurrences of a query over named shards, flattened in
shard order. -/
def occList (q : Query) : List (String × List Doc) → List (String × Doc)
  | [] => []
  | p :: rest => (p.2.filter (matchesQuery q)).map (fun d => (p.1, d)) ++ occList q rest

/-- Fold a flat occurrence list into the reconciliation dictionary. -/
def foldFlat (l : List (String × Doc)) (acc : List (String × Doc)) : List (String × Doc) :=
  l.foldl (fun a nd => insDoc nd.1 a nd.2) acc

theorem foldl_insDoc_map (name : String) (ds : List Doc) (acc : List (String × Doc)) :
    ds.foldl (insDoc name) acc = foldFlat (ds.map (fun d => (name, d))) acc := by
  induction ds generalizing acc with
  | nil => rfl
  | cons d rest ih => simp [foldFlat, List.foldl_cons, ih]

theorem foldFlat_append (l1 l2 : List (String × Doc)) (acc : List (String × Doc)) :
    foldFlat (l1 ++ l2) acc = foldFlat l2 (foldFlat l1 acc) := by
  simp [foldFlat, List.foldl_append]

theorem reconcile_eq_foldFlat (q : Query) (pairs : List (String × List Doc))
    (acc : List (String × Doc)) :
    reconcile q pairs acc = foldFlat (occList q pairs) acc := by
  induction pairs generalizing acc with
  | nil => rfl
  | cons p rest ih =>
    simp only [reconcile, List.foldl_cons, occList, foldFlat_append]
    rw [← foldl_insDoc_map]
    exact ih _

/-- The keys of the reconciliation dictionary. -/
def keysOf (acc : List (String × Doc)) : List String := acc.map (fun e => e.1)

theorem keyOf_dSet_source (d : Doc) (v : Value) :
    keyOf (dSet d "source_db" v) = keyOf d := by
  unfold keyOf
  rw [dGet_dSet_diff _ _ _ _ (by decide)]

theorem keyOf_appendSource (n : String) (d : Doc) : keyOf (appendSource n d) = keyOf d := by
  unfold appendSource
  cases hm : dGet d "source_db" with
  | none => exact keyOf_dSet_source d _
  | some v => cases v <;> exact keyOf_dSet_source d _

theorem keyOf_setSource (n : String) (d : Doc) : keyOf (setSource n d) = keyOf d :=
  keyOf_dSet_source d _

theorem dGet_appendSource (n : String) (d : Doc) (L : List String)
    (hm : dGet d "source_db" = some (Value.vlist L)) :
    dGet (appendSource n d) "source_db" = some (Value.vlist (L ++ [n])) := by
  unfold appendSource
  rw [hm]
  exact dGet_dSet_same d _ _

theorem dGet_setSource (n : String) (d : Doc) :
    dGet (setSource n d) "source_db" = some (Value.vlist [n]) :=
  dGet_dSet_same d _ _

/-- Invariant of the reconciliation dictionary after folding the
occurrence list M: the keys are exactly the custom ids of M, without
duplicates; each entry is keyed by its own custom id; and each entry's
source_db lists the shard names of every occurrence of its key, in
order. -/
structure ReconInv (M : List (String × Doc)) (acc : List (String × Doc)) : Prop where
  mem_keys : ∀ k, k ∈ keysOf acc ↔ ∃ nd ∈ M, keyOf nd.2 = k
  nodup : (keysOf acc).Nodup
  source : ∀ e ∈ acc, dGet e.2 "source_db" =
    some (Value.vlist ((M.filter (fun nd => keyOf nd.2 == e.1)).map (fun nd => nd.1)))
  keyed : ∀ e ∈ acc, keyOf e.2 = e.1

theorem reconInv_nil : ReconInv [] [] := by
  refine ⟨?_, ?_, ?_, ?_⟩ <;> simp [keysOf]

theorem reconInv_step (M : List (String × Doc)) (acc : List (String × Doc)) (n : String)
    (d : Doc) (inv : ReconInv M acc) : ReconInv (M ++ [(n, d)]) (insDoc n acc d) := by
  unfold insDoc
  by_cases hmem : acc.any (fun e => e.1 == keyOf d) = true
  · rw [if_pos hmem]
    have hkey_in : keyOf d ∈ keysOf acc := by
      rcases List.any_eq_true.1 hmem with ⟨e, he, heq⟩
      have h1 : e.1 = keyOf d := by simpa using heq
      exact h1 ▸ List.mem_map.2 ⟨e, he, rfl⟩
    have hkeys : keysOf (acc.map (fun e =>
        if e.1 == keyOf d then (e.1, appendSource n e.2) else e)) = keysOf acc := by
      unfold keysOf
      rw [List.map_map]
      apply List.map_congr_left
      intro e _
      by_cases h : e.1 = keyOf d <;> simp [h]
    refine ⟨?_, ?_, ?_, ?_⟩
    · intro k
      rw [hkeys, inv.mem_keys k]
      constructor
      · rintro ⟨nd, hnd, hk⟩
        exact ⟨nd, List.mem_append_left _ hnd, hk⟩
      · rintro ⟨nd, hnd, hk⟩
        rcases List.mem_append.1 hnd with h | h
        · exact ⟨nd, h, hk⟩
        · have hnd' : nd = (n, d) := by simpa using h
          subst hnd'
          exact (inv.mem_keys k).1 (hk ▸ hkey_in)
    · rw [hkeys]
      exact inv.nodup
    · intro e' he'
      rcases List.mem_map.1 he' with ⟨e, he, heq⟩
      by_cases h : (e.1 == keyOf d) = true
      · rw [if_pos h] at heq
        have h1 : keyOf d = e.1 := (beq_iff_eq.1 h).symm
        rw [← heq]
        dsimp only
        rw [dGet_appendSource n e.2 _ (inv.source e he)]
        rw [List.filter_append]
        have hsingle : ([(n, d)].filter (fun nd => keyOf nd.2 == e.1)) = [(n, d)] := by
          simp [h1]
        rw [hsingle, List.map_append]
        rfl
      · rw [if_neg h] at heq
        rw [← heq]
        rw [List.filter_append]
        have hne : ¬ (keyOf d = e.1) := by
          intro hc
          exact h (by simp [hc])
        have hsingle : ([(n, d)].filter (fun nd => keyOf nd.2 == e.1)) = [] := by
          simp [hne]
        rw [hsingle, List.append_nil]
        exact inv.source e he
    · intro e' he'
      rcases List.mem_map.1 he' with ⟨e, he, heq⟩
      by_cases h : (e.1 == keyOf d) = true
      · rw [if_pos h] at heq
        rw [← heq]
        dsimp only
        rw [keyOf_appendSource]
        exact inv.keyed e he
      · rw [if_neg h] at heq
        rw [← heq]
        exact inv.keyed e he
  · rw [if_neg hmem]
    have hkey_out : keyOf d ∉ keysOf acc := by
      intro hk
      apply hmem
      rcases List.mem_map.1 hk with ⟨e, he, heq⟩
      exact List.any_eq_true.2 ⟨e, he, by simp [heq]⟩
    have hM_empty : M.filter (fun nd => keyOf nd.2 == keyOf d) = [] := by
      rw [List.filter_eq_nil_iff]
      intro nd hnd
      intro hcontra
      exact hkey_out ((inv.mem_keys (keyOf d)).2 ⟨nd, hnd, beq_iff_eq.1 hcontra⟩)
    have hkeys : keysOf (acc ++ [(keyOf d, setSource n d)]) = keysOf acc ++ [keyOf d] := by
      unfold keysOf
      rw [List.map_append]
      rfl
    refine ⟨?_, ?_, ?_, ?_⟩
    · intro k
      rw [hkeys]
      constructor
      · intro hk
        rcases List.mem_append.1 hk with hk | hk
        · rcases (inv.mem_keys k).1 hk with ⟨nd, hnd, h2⟩
          exact ⟨nd, List.mem_append_left _ hnd, h2⟩
        · have hkd : k = keyOf d := by simpa using hk
          exact ⟨(n, d), List.mem_append_right _ (List.mem_singleton.2 rfl), hkd.symm⟩
      · rintro ⟨nd, hnd, hk⟩
        rcases List.mem_append.1 hnd with h | h
        · exact List.mem_append_left _ ((inv.mem_keys k).2 ⟨nd, h, hk⟩)
        · have hnd' : nd = (n, d) := by simpa using h
          subst hnd'
          exact List.mem_append_right _ (by simpa using hk.symm)
    · rw [hkeys]
      rw [List.nodup_append]
      refine ⟨inv.nodup, List.nodup_singleton _, ?_⟩
      intro a ha hb
      have hab : a = keyOf d := List.mem_singleton.1 hb
      exact hkey_out (hab ▸ ha)
    · intro e' he'
      rcases List.mem_append.1 he' with h | h
      · have hne : ¬ (keyOf d = e'.1) := by
          intro hc
          apply hkey_out
          rw [hc]
          exact List.mem_map.2 ⟨e', h, rfl⟩
        rw [List.filter_append]
        have hsingle : ([(n, d)].filter (fun nd => keyOf nd.2 == e'.1)) = [] := by
          simp [hne]
        rw [hsingle, List.append_nil]
        exact inv.source e' h
      · have he'' : e' = (keyOf d, setSource n d) := by simpa using h
        subst he''
        dsimp only
        rw [dGet_setSource, List.filter_append, hM_empty]
        have hsingle : ([(n, d)].filter (fun nd => keyOf nd.2 == keyOf d)) = [(n, d)] := by
          simp
        rw [hsingle]
        rfl
    · intro e' he'
      rcases List.mem_append.1 he' with h | h
      · exact inv.keyed e' h
      · have he'' : e' = (keyOf d, setSource n d) := by simpa using h
        subst he''
        exact keyOf_setSource n d

theorem reconInv_foldFlat (l : List (String × Doc)) (M : List (String × Doc))
    (acc : List (String × Doc)) (inv : ReconInv M acc) :
    ReconInv (M ++ l) (foldFlat l acc) := by
  induction l generalizing M acc with
  | nil => simpa using inv
  | cons nd rest ih =>
    have step := reconInv_step M acc nd.1 nd.2 inv
    have := ih (M ++ [nd]) (insDoc nd.1 acc nd.2) step
    simpa [foldFlat] using this

theorem reconInv_reconcile (q : Query) (pairs : List (String × List Doc)) :
    ReconInv (occList q pairs) (reconcile q pairs []) := by
  rw [reconcile_eq_foldFlat]
  simpa using reconInv_foldFlat (occList q pairs) [] [] reconInv_nil

theorem mem_occList (q : Query) (pairs : List (String × List Doc)) (n : String) (dd : Doc) :
    (n, dd) ∈ occList q pairs ↔
      ∃ p ∈ pairs, n = p.1 ∧ dd ∈ p.2 ∧ matchesQuery q dd = true := by
  induction pairs with
  | nil => simp [occList]
  | cons p rest ih =>
    simp only [occList, List.mem_append, List.mem_map, List.mem_filter, ih, List.mem_cons]
    constructor
    · rintro (⟨d2, ⟨hd2, hm⟩, heq⟩ | ⟨p2, hp2, hn, hdd, hm⟩)
      · rcases Prod.mk.injEq _ _ _ _ ▸ heq with ⟨h1, h2⟩
        exact ⟨p, Or.inl rfl, h1.symm, h2 ▸ hd2, h2 ▸ hm⟩
      · exact ⟨p2, Or.inr hp2, hn, hdd, hm⟩
    · rintro ⟨p2, hp2 | hp2, hn, hdd, hm⟩
      · exact Or.inl ⟨dd, ⟨hp2 ▸ hdd, hm⟩, by rw [hn, hp2]⟩
      · exact Or.inr ⟨p2, hp2, hn, hdd, hm⟩

theorem filter_map_pair (name : String) (l : List Doc) (b : Doc → Bool) :
    (l.map (fun d => (name, d))).filter (fun nd => b nd.2) =
      (l.filter b).map (fun d => (name, d)) := by
  induction l with
  | nil => rfl
  | cons d rest ih =>
    by_cases h : b d = true <;> simp [h, ih, List.filter_cons]

theorem inner_shape (q : Query) (cid : String) (name : String) (ds : List Doc)
    (hle : (ds.filter (fun dd => matchesQuery q dd && (keyOf dd == cid))).length ≤ 1) :
    (((ds.filter (matchesQuery q)).map (fun d => (name, d))).filter
        (fun nd => keyOf nd.2 == cid)).map (fun nd => nd.1) =
      if ds.any (fun dd => matchesQuery q dd && (keyOf dd == cid)) then [name] else [] := by
  rw [filter_map_pair name (ds.filter (matchesQuery q)) (fun x => keyOf x == cid),
    List.filter_filter, List.map_map]
  rw [show (fun a => keyOf a == cid && matchesQuery q a) =
    (fun dd => matchesQuery q dd && (keyOf dd == cid)) from funext (fun a => Bool.and_comm _ _)]
  cases hF : ds.filter (fun dd => matchesQuery q dd && (keyOf dd == cid)) with
  | nil =>
    have hany : ds.any (fun dd => matchesQuery q dd && (keyOf dd == cid)) = false := by
      rw [List.any_eq_false]
      intro dd hdd
      intro hsat
      have : dd ∈ ds.filter (fun a => matchesQuery q a && (keyOf a == cid)) :=
        List.mem_filter.2 ⟨hdd, hsat⟩
      rw [hF] at this
      exact absurd this (List.not_mem_nil dd)
    rw [hany]
    rfl
  | cons x xs =>
    have hxs : xs = [] := by
      rw [hF] at hle
      simp only [List.length_cons] at hle
      exact List.length_eq_zero.1 (by omega)
    have hx : x ∈ ds.filter (fun a => matchesQuery q a && (keyOf a == cid)) := by
      rw [hF]
      exact List.mem_cons_self x xs
    have hany : ds.any (fun dd => matchesQuery q dd && (keyOf dd == cid)) = true :=
      List.any_eq_true.2 ⟨x, (List.mem_filter.1 hx).1, (List.mem_filter.1 hx).2⟩
    rw [hxs, hany]
    rfl

theorem occ_filter_map (q : Query) (cid : String) (pairs : List (String × List Doc))
    (hle : ∀ p ∈ pairs,
      (p.2.filter (fun dd => matchesQuery q dd && (keyOf dd == cid))).length ≤ 1) :
    ((occList q pairs).filter (fun nd => keyOf nd.2 == cid)).map (fun nd => nd.1) =
      (pairs.filter (fun p =>
        p.2.any (fun dd => matchesQuery q dd && (keyOf dd == cid)))).map (fun p => p.1) := by
  induction pairs with
  | nil => rfl
  | cons p rest ih =>
    rw [occList, List.filter_append, List.map_append]
    rw [inner_shape q cid p.1 p.2 (hle p (List.mem_cons_self p rest))]
    rw [ih (fun p2 hp2 => hle p2 (List.mem_cons_of_mem p hp2))]
    by_cases h : p.2.any (fun dd => matchesQuery q dd && (keyOf dd == cid)) = true
    · rw [h]
      simp [List.filter_cons, h]
    · have h' : p.2.any (fun dd => matchesQuery q dd && (keyOf dd == cid)) = false := by
        simpa using h
      rw [h']
      simp [List.filter_cons, h']

theorem insertSorted_perm (le : Doc → Doc → Bool) (d : Doc) (l : List Doc) :
    (insertSorted le d l).Perm (d :: l) := by
  induction l with
  | nil => exact List.Perm.refl _
  | cons x t ih =>
    by_cases h : le x d = true
    · rw [insertSorted, if_pos h]
      exact (ih.cons x).trans (List.Perm.swap d x t)
    · rw [insertSorted, if_neg h]

theorem isort_perm (le : Doc → Doc → Bool) (l : List Doc) : (isort le l).Perm l := by
  induction l with
  | nil => exact List.Perm.refl _
  | cons x t ih =>
    exact (insertSorted_perm le x (isort le t)).trans (ih.cons x)

theorem countP_congr' {α : Type} (l : List α) (p q : α → Bool)
    (h : ∀ a ∈ l, p a = q a) : l.countP p = l.countP q := by
  induction l with
  | nil => rfl
  | cons x t ih =>
    rw [List.countP_cons, List.countP_cons, h x (List.mem_cons_self x t),
      ih (fun a ha => h a (List.mem_cons_of_mem x ha))]

theorem countP_beq_of_nodup (l : List String) (k : String) (hnd : l.Nodup) (hk : k ∈ l) :
    l.countP (fun a => a == k) = 1 := by
  induction l with
  | nil => exact absurd hk (List.not_mem_nil k)
  | cons x t ih =>
    rw [List.nodup_cons] at hnd
    rcases List.mem_cons.1 hk with hx | hx
    · subst hx
      rw [List.countP_cons]
      have hzero : t.countP (fun a => a == k) = 0 := by
        rw [List.countP_eq_zero]
        intro a ha hb
        exact hnd.1 ((beq_iff_eq.1 hb) ▸ ha)
      simp [hzero]
    · have hxk : (x == k) = false := by
        rcases Bool.eq_false_or_eq_true (x == k) with hb | hb
        · exact absurd ((beq_iff_eq.1 hb) ▸ hx) hnd.1
        · exact hb
      rw [List.countP_cons, hxk, ih hnd.2 hx]
      simp

theorem matchesCid_eq_keyBeq (cid : String) (hcid : cid ≠ "") (dd : Doc) :
    matchesCid cid dd = (keyOf dd == cid) := by
  unfold matchesCid keyOf
  cases h : dGet dd "custom_id" with
  | none => simp [Ne.symm hcid]
  | some v => cases v <;> simp [Ne.symm hcid]

/-! ## Search claims -/

/-- C1: for every search invocation and shard contents, if some shard holds
a document that matches the built query and carries the custom id cid (a
nonempty id, at most one such document per shard), then the result list of
search_property contains exactly one entry whose custom_id equals cid, and
that entry's source_db field lists exactly the shards holding such a
matching document, in shard-list order. -/
theorem search_reconciliation
    (city state property_type address qcid sortp : Option String) (s : ShardState)
    (cid : String) (hcid : cid ≠ "")
    (honce : ∀ p ∈ shardPairs s,
      (p.2.filter (fun dd => matchesQuery (buildQuery city state property_type address qcid) dd &&
        (keyOf dd == cid))).length ≤ 1)
    (hfound : ∃ p ∈ shardPairs s, ∃ dd ∈ p.2,
      matchesQuery (buildQuery city state property_type address qcid) dd = true ∧
        keyOf dd = cid) :
    (search_property city state property_type address qcid sortp s).countP (matchesCid cid) = 1 ∧
    ∀ dd ∈ search_property city state property_type address qcid sortp s,
      matchesCid cid dd = true →
      dGet dd "source_db" = some (Value.vlist
        (((shardPairs s).filter (fun p => p.2.any (fun dd2 =>
            matchesQuery (buildQuery city state property_type address qcid) dd2 &&
              (keyOf dd2 == cid)))).map (fun p => p.1))) := by
  have inv := reconInv_reconcile (buildQuery city state property_type address qcid) (shardPairs s)
  have hperm : (search_property city state property_type address qcid sortp s).Perm
      ((reconcile (buildQuery city state property_type address qcid) (shardPairs s) []).map
        (fun e => e.2)) := by
    simp only [search_property]
    by_cases hs : truthy sortp = true
    · simp only [hs, if_true]
      exact isort_perm _ _
    · have hs' : truthy sortp = false := by simpa using hs
      simp only [hs']
      simp
  have hmemq : cid ∈ keysOf
      (reconcile (buildQuery city state property_type address qcid) (shardPairs s) []) := by
    rcases hfound with ⟨p, hp, dd, hdd, hmatch, hkey⟩
    exact (inv.mem_keys cid).2
      ⟨(p.1, dd), (mem_occList _ _ _ _).2 ⟨p, hp, rfl, hdd, hmatch⟩, hkey⟩
  have hcount0 : ((reconcile (buildQuery city state property_type address qcid)
      (shardPairs s) []).map (fun e => e.2)).countP (matchesCid cid) = 1 := by
    rw [List.countP_map]
    have hcongr : (reconcile (buildQuery city state property_type address qcid)
        (shardPairs s) []).countP (matchesCid cid ∘ fun e => e.2) =
        (reconcile (buildQuery city state property_type address qcid)
          (shardPairs s) []).countP ((fun a => a == cid) ∘ fun e => e.1) := by
      apply countP_congr'
      intro e he
      show matchesCid cid e.2 = (e.1 == cid)
      rw [matchesCid_eq_keyBeq cid hcid, inv.keyed e he]
    rw [hcongr, ← List.countP_map]
    exact countP_beq_of_nodup _ cid inv.nodup hmemq
  have hsource0 : ∀ dd ∈ (reconcile (buildQuery city state property_type address qcid)
      (shardPairs s) []).map (fun e => e.2), matchesCid cid dd = true →
      dGet dd "source_db" = some (Value.vlist
        (((shardPairs s).filter (fun p => p.2.any (fun dd2 =>
            matchesQuery (buildQuery city state property_type address qcid) dd2 &&
              (keyOf dd2 == cid)))).map (fun p => p.1))) := by
    intro dd hdd hm
    rcases List.mem_map.1 hdd with ⟨e, he, heq⟩
    subst heq
    have hkey : keyOf e.2 = cid := by
      rw [matchesCid_eq_keyBeq cid hcid] at hm
      exact beq_iff_eq.1 hm
    have he1 : e.1 = cid := (inv.keyed e he) ▸ hkey
    rw [inv.source e he, he1]
    rw [occ_filter_map _ cid (shardPairs s) honce]
  refine ⟨?_, ?_⟩
  · rw [hperm.countP_eq]
    exact hcount0
  · intro dd hdd hm
    exact hsource0 dd (hperm.mem_iff.1 hdd) hm

/-- C1 witness: a record with custom id X1 replicated to the first two
shards and searched for by exact custom id appears exactly once in the
result list. -/
theorem search_reconciliation_witness :
    (search_property none none none none (some "X1") none
      ⟨[[("custom_id", Value.vstr "X1"), ("price", Value.vint 5)]],
       [[("custom_id", Value.vstr "X1"), ("price", Value.vint 5)]], [], []⟩).countP
      (matchesCid "X1") = 1 :=
  (search_reconciliation none none none none (some "X1") none
    ⟨[[("custom_id", Value.vstr "X1"), ("price", Value.vint 5)]],
     [[("custom_id", Value.vstr "X1"), ("price", Value.vint 5)]], [], []⟩
    "X1" (by decide) (by decide) (by decide)).1

theorem matchesQuery_empty (dd : Doc) :
    matchesQuery (buildQuery none none none none none) dd = true := rfl

theorem map_keyOf_result (acc : List (String × Doc)) (hkeyed : ∀ e ∈ acc, keyOf e.2 = e.1) :
    (acc.map (fun e => e.2)).map keyOf = keysOf acc := by
  unfold keysOf
  rw [List.map_map]
  exact List.map_congr_left hkeyed

/-- C10: search_property treats an empty-string filter like an absent one:
an empty custom_id does not take precedence (the call equals the call with
custom_id absent, so the remaining filters apply), all-empty filters equal
all-absent filters, and the all-absent query returns every stored record,
de-duplicated by custom id. -/
theorem search_empty_filters (city state property_type address sortp : Option String)
    (s : ShardState) (k : String) :
    search_property city state property_type address (some "") sortp s =
      search_property city state property_type address none sortp s ∧
    search_property (some "") (some "") (some "") (some "") (some "") sortp s =
      search_property none none none none none sortp s ∧
    ((search_property none none none none none none s).map keyOf).Nodup ∧
    (k ∈ (search_property none none none none none none s).map keyOf ↔
      ∃ p ∈ shardPairs s, ∃ dd ∈ p.2, keyOf dd = k) := by
  have inv := reconInv_reconcile (buildQuery none none none none none) (shardPairs s)
  have heq : search_property none none none none none none s =
      (reconcile (buildQuery none none none none none) (shardPairs s) []).map
        (fun e => e.2) := rfl
  refine ⟨rfl, rfl, ?_, ?_⟩
  · rw [heq, map_keyOf_result _ inv.keyed]
    exact inv.nodup
  · rw [heq, map_keyOf_result _ inv.keyed]
    rw [inv.mem_keys k]
    constructor
    · rintro ⟨⟨n, dd⟩, hnd, hk⟩
      rcases (mem_occList _ _ _ _).1 hnd with ⟨p, hp, _, hdd, _⟩
      exact ⟨p, hp, dd, hdd, hk⟩
    · rintro ⟨p, hp, dd, hdd, hk⟩
      exact ⟨(p.1, dd),
        (mem_occList _ _ _ _).2 ⟨p, hp, rfl, hdd, matchesQuery_empty dd⟩, hk⟩
